import Mathlib

/-!
# Shelly Dimmer driver: verification of framing, protocol and calibration

A shallow embedding of `src/components/shelly_dimmer/shelly_dimmer.cpp`.

Conventions of the embedding:
* machine bytes (`uint8_t`) and words (`uint16_t`, `uint32_t`) are `Nat` with
  explicit `% 256` / `% 65536` where the C code can overflow;
* `float` arithmetic is modelled exactly over `ℚ` (the affine remaps and the
  calibration table use only +, -, *, /);
* the UART is a list of bytes available to `read()`, writes are accumulated
  into a list of frames;
* fallible paths return `Bool`/`Option` exactly where the source does.
-/

namespace ShellyDimmer

/-! ## Protocol constants (anonymous namespace of shelly_dimmer.cpp) -/

def SHELLY_DIMMER_ACK_TIMEOUT : Nat := 200

def SHELLY_DIMMER_MAX_RETRIES : Nat := 3

def SHELLY_DIMMER_MAX_BRIGHTNESS : Nat := 1000

def SHELLY_DIMMER_PROTO_START_BYTE : Nat := 0x01

def SHELLY_DIMMER_PROTO_END_BYTE : Nat := 0x04

def SHELLY_DIMMER_PROTO_CMD_SWITCH : Nat := 0x01

def SHELLY_DIMMER_PROTO_CMD_POLL : Nat := 0x10

def SHELLY_DIMMER_PROTO_CMD_VERSION : Nat := 0x11

def SHELLY_DIMMER_PROTO_CMD_SETTINGS : Nat := 0x20

def SHELLY_DIMMER_PROTO_MAX_FRAME_SIZE : Nat := 4 + 72 + 3

/-- Modelled from the spec: `SHELLY_DIMMER_BUFFER_SIZE` is declared in
`shelly_dimmer.h`, which is not part of the provided sources.  The spec fixes
the receive buffer at the maximum total frame size of 79 bytes
(`START | SEQ | CMD | LEN | PAYLOAD[<=72] | CSUM_HI | CSUM_LO | END`). -/
def SHELLY_DIMMER_BUFFER_SIZE : Nat := 79

/-! ## Checksum and framing -/

/-- `shelly_dimmer_checksum`: `std::accumulate` over the bytes with a
`uint16_t` accumulator, i.e. each addition is reduced `% 2^16`. -/
def shelly_dimmer_checksum (buf : List Nat) : Nat :=
  buf.foldl (fun acc b => (acc + b) % 65536) 0

/-- `ShellyDimmer::frame_command_`.  `seq_` is the driver's `uint8_t` sequence
counter before the call; the function pre-increments it (`++this->seq_`,
wrapping mod 256) and lays out
`START | SEQ | CMD | LEN | PAYLOAD | CSUM_HI | CSUM_LO | END`.
The checksum covers `data+1 .. data+3+len`, i.e. `SEQ CMD LEN PAYLOAD`;
`static_cast<uint8_t>(csum >> 8)` is `csum / 256` and
`static_cast<uint8_t>(csum & 0xff)` is `csum % 256` since `csum < 2^16`.
Returns the incremented sequence counter together with the frame bytes. -/
def frame_command_ (seq_ : Nat) (cmd : Nat) (payload : List Nat) :
    Nat × List Nat :=
  let seq1 := (seq_ + 1) % 256
  let csum := shelly_dimmer_checksum ([seq1, cmd, payload.length] ++ payload)
  (seq1,
    [SHELLY_DIMMER_PROTO_START_BYTE, seq1, cmd, payload.length] ++ payload ++
      [csum / 256, csum % 256, SHELLY_DIMMER_PROTO_END_BYTE])

/-- `ShellyDimmer::handle_byte_`.  The receive buffer is represented by the
list of bytes already stored (`buffer_pos_ = buffer_.length`); `c` is the byte
just read (the source stores it at `buffer_[buffer_pos_]` before classifying).
`buffer_[pos - 1] << 8 | c` is `buffer_[pos-1] * 256 + c` because `c` is a
`uint8_t`.  Returns `1` (need more data), `-1` (failure, reset) or `0`
(frame complete). -/
def handle_byte_ (buffer_ : List Nat) (c : Nat) : Int :=
  let pos := buffer_.length
  if pos = 0 then
    if c = SHELLY_DIMMER_PROTO_START_BYTE then 1 else -1
  else if pos < 4 then 1
  else
    let payload_len := buffer_.getD 3 0
    if 4 + payload_len + 3 > SHELLY_DIMMER_BUFFER_SIZE then -1
    else if pos < 4 + payload_len + 1 then 1
    else if pos = 4 + payload_len + 1 then
      let csum := buffer_.getD (pos - 1) 0 * 256 + c
      let csum_verify :=
        shelly_dimmer_checksum ((buffer_.drop 1).take (3 + payload_len))
      if csum = csum_verify then 1 else -1
    else if pos = 4 + payload_len + 2 then
      if c = SHELLY_DIMMER_PROTO_END_BYTE then 0 else -1
    else -1

/-- `ShellyDimmer::read_frame_`: drains the available UART bytes through
`handle_byte_`.  Returns
`(frame completed?, receive-buffer state, bytes left unread, completed frame)`.
On completion (`0`) the source calls `handle_frame_`, zeroes `buffer_pos_` and
returns `true`, leaving the remaining bytes in the UART; on failure (`-1`) it
zeroes `buffer_pos_` and keeps reading. -/
def read_frame_ (buffer_ : List Nat) (input : List Nat) :
    Bool × List Nat × List Nat × Option (List Nat) :=
  match input with
  | [] => (false, buffer_, [], none)
  | c :: rest =>
    let r := handle_byte_ buffer_ c
    if r = 0 then (true, [], rest, some (buffer_ ++ [c]))
    else if r = -1 then read_frame_ [] rest
    else read_frame_ (buffer_ ++ [c]) rest

/-- One byte of `read_frame_`'s loop, as a transition on the receive-buffer
state alone (used to describe every state the parser passes through). -/
def rx_step (buffer_ : List Nat) (c : Nat) : List Nat :=
  let r := handle_byte_ buffer_ c
  if r = 0 then []
  else if r = -1 then []
  else buffer_ ++ [c]

/-- All receive-buffer states the parser passes through while consuming
`input`, starting from `buffer_`; each listed state is the buffer content at
the moment the next write `buffer_[buffer_pos_] = c` happens. -/
def rx_states (buffer_ : List Nat) (input : List Nat) : List (List Nat) :=
  match input with
  | [] => [buffer_]
  | c :: rest => buffer_ :: rx_states (rx_step buffer_ c) rest

/-! ## Frame dispatch (`handle_frame_`) -/

def POWER_SCALING_FACTOR : ℚ := 880373

def VOLTAGE_SCALING_FACTOR : ℚ := 347800

def CURRENT_SCALING_FACTOR : ℚ := 1448

/-- ESPHome helper `encode_uint16(msb, lsb) = msb << 8 | lsb`; the arguments
are bytes (< 256), so the bitwise or is addition. -/
def encode_uint16 (msb lsb : Nat) : Nat := msb * 256 + lsb

/-- ESPHome helper `encode_uint32 (b3, b2, b1, b0)`, bytes from most to least
significant. -/
def encode_uint32 (b3 b2 b1 b0 : Nat) : Nat :=
  b3 * 16777216 + b2 * 65536 + b1 * 256 + b0

/-- Telemetry decoded from a POLL response and published to the sensors
(the scaled values use the exact-rational model of `float`). -/
structure PollData where
  hw_version : Nat
  brightness : Nat
  power_raw : Nat
  voltage_raw : Nat
  current_raw : Nat
  fade_rate : Nat
  power : ℚ
  voltage : ℚ
  current : ℚ
  deriving DecidableEq, Repr

/-- Outcome of `ShellyDimmer::handle_frame_`: the returned `bool`, the POLL
telemetry published (if any) and the `(major, minor)` version stored by a
VERSION response (if any). -/
structure FrameResult where
  ok : Bool
  poll : Option PollData
  version : Option (Nat × Nat)
  deriving DecidableEq, Repr

/-- `ShellyDimmer::handle_frame_` run over a completed receive buffer, with
`seq_` the driver's current sequence counter.  Mirrors the source: a
sequence mismatch returns `false`; POLL requires `payload_len >= 16` and
decodes `hw_version`, big-endian `brightness` over payload bytes 2..3,
little-endian `u32` raws over bytes 4..7, 8..11, 12..15 and `fade_rate` from
byte 16; VERSION requires `payload_len >= 2`; SWITCH/SETTINGS succeed iff the
first payload byte is `0x01`. -/
def handle_frame_ (seq_ : Nat) (buffer_ : List Nat) : FrameResult :=
  let seq := buffer_.getD 1 0
  let cmd := buffer_.getD 2 0
  let payload_len := buffer_.getD 3 0
  if seq ≠ seq_ then ⟨false, none, none⟩
  else
    let payload := buffer_.drop 4
    if cmd = SHELLY_DIMMER_PROTO_CMD_POLL then
      if payload_len < 16 then ⟨false, none, none⟩
      else
        let hw_version := payload.getD 0 0
        let brightness := encode_uint16 (payload.getD 3 0) (payload.getD 2 0)
        let power_raw :=
          encode_uint32 (payload.getD 7 0) (payload.getD 6 0)
            (payload.getD 5 0) (payload.getD 4 0)
        let voltage_raw :=
          encode_uint32 (payload.getD 11 0) (payload.getD 10 0)
            (payload.getD 9 0) (payload.getD 8 0)
        let current_raw :=
          encode_uint32 (payload.getD 15 0) (payload.getD 14 0)
            (payload.getD 13 0) (payload.getD 12 0)
        let fade_rate := payload.getD 16 0
        let power : ℚ :=
          if power_raw > 0 then POWER_SCALING_FACTOR / power_raw else 0
        let voltage : ℚ :=
          if voltage_raw > 0 then VOLTAGE_SCALING_FACTOR / voltage_raw else 0
        let current : ℚ :=
          if current_raw > 0 then CURRENT_SCALING_FACTOR / current_raw else 0
        ⟨true,
          some ⟨hw_version, brightness, power_raw, voltage_raw, current_raw,
            fade_rate, power, voltage, current⟩, none⟩
    else if cmd = SHELLY_DIMMER_PROTO_CMD_VERSION then
      if payload_len < 2 then ⟨false, none, none⟩
      else ⟨true, none, some (payload.getD 1 0, payload.getD 0 0)⟩
    else if cmd = SHELLY_DIMMER_PROTO_CMD_SWITCH ∨
        cmd = SHELLY_DIMMER_PROTO_CMD_SETTINGS then
      if payload_len < 1 ∨ payload.getD 0 0 ≠ 0x01 then ⟨false, none, none⟩
      else ⟨true, none, none⟩
    else ⟨false, none, none⟩

/-- A complete, checksum-valid POLL response frame with a 16-byte payload
(all zeros), sequence byte 1. -/
def poll_response_16 : List Nat :=
  [0x01, 1, 0x10, 16] ++ List.replicate 16 0 ++ [0x00, 0x21, 0x04]

/-- POLL response frame (sequence 1) whose 17-byte payload is
`01 00 E8 03 00 00 01 00 00 00 01 00 00 00 01 00 00`. -/
def poll_response_17 : List Nat :=
  [0x01, 1, 0x10, 17] ++
    [0x01, 0x00, 0xE8, 0x03, 0x00, 0x00, 0x01, 0x00, 0x00, 0x00, 0x01, 0x00,
      0x00, 0x00, 0x01, 0x00, 0x00] ++ [0x01, 0x11, 0x04]

/-! ## Command transmission (`send_command_`) -/

/-- The ack-wait loop inside `send_command_`:
`while (millis() - tx_time < SHELLY_DIMMER_ACK_TIMEOUT) { if (read_frame_()) return true; delay(1); }`.
Time is modelled by counting the cooperative `delay(1)` calls (reads are
instantaneous), so the loop runs at most `fuel = SHELLY_DIMMER_ACK_TIMEOUT`
iterations.  Returns `(acknowledged?, receive-buffer state, remaining input,
milliseconds spent in delay(1))`. -/
def wait_for_ack : List Nat → List Nat → Nat →
    Bool × List Nat × List Nat × Nat
  | buffer_, input, 0 => (false, buffer_, input, 0)
  | buffer_, input, fuel + 1 =>
    let r := read_frame_ buffer_ input
    if r.1 then (true, r.2.1, r.2.2.1, 0)
    else
      let w := wait_for_ack r.2.1 r.2.2.1 fuel
      (w.1, w.2.1, w.2.2.1, w.2.2.2 + 1)

/-- The retry loop of `send_command_`:
`int retries = SHELLY_DIMMER_MAX_RETRIES; while (retries--) { write_array(frame, frame_len); flush(); <ack wait>; }`.
Returns `(acknowledged?, frames written, milliseconds spent waiting)`. -/
def send_attempts (frame : List Nat) : List Nat → List Nat → Nat →
    Bool × List (List Nat) × Nat
  | _, _, 0 => (false, [], 0)
  | buffer_, input, retries + 1 =>
    let w := wait_for_ack buffer_ input SHELLY_DIMMER_ACK_TIMEOUT
    if w.1 then (true, [frame], w.2.2.2)
    else
      let rest := send_attempts frame w.2.1 w.2.2.1 retries
      (rest.1, frame :: rest.2.1, w.2.2.2 + rest.2.2)

/-- `ShellyDimmer::send_command_`: builds the frame once (pre-incrementing
`seq_`), then makes up to `SHELLY_DIMMER_MAX_RETRIES` attempts, each writing
and flushing the same frame and waiting up to `SHELLY_DIMMER_ACK_TIMEOUT` ms.
`buffer_` is the receive-buffer state on entry, `input` the bytes the UART
will yield.  Returns
`(acknowledged?, new seq_, frames written, ms spent waiting)`. -/
def send_command_ (seq_ cmd : Nat) (payload buffer_ input : List Nat) :
    Bool × Nat × List (List Nat) × Nat :=
  let fc := frame_command_ seq_ cmd payload
  let r := send_attempts fc.2 buffer_ input SHELLY_DIMMER_MAX_RETRIES
  (r.1, fc.1, r.2.1, r.2.2)

/-! ## Calibration and brightness (exact-rational model of `float`) -/

/-- ESPHome helper `remap(value, min, max, min_out, max_out)`:
`(value - min) * (max_out - min_out) / (max - min) + min_out`. -/
def remap (value min max min_out max_out : ℚ) : ℚ :=
  (value - min) * (max_out - min_out) / (max - min) + min_out

/-- `CALIBRATION_STEP = 0.05f` (exactly `1/20` in the rational model). -/
def CALIBRATION_STEP : ℚ := 0.05

/-- `ShellyDimmer::complete_calibration_` acting on the 20-entry table:
sort descending (`std::sort` with `std::greater`), then remap every value
from `[data[size-1], data[0]]` (the post-sort min and max) onto `[0, 1]`.
(The `calibrating_ = false` assignment and the poller/persistence calls have
no effect on the table.) -/
def complete_calibration_ (calibration_data_ : List ℚ) : List ℚ :=
  let sorted := calibration_data_.insertionSort (· ≥ ·)
  let max := sorted.getD 0 0
  let min := sorted.getD (sorted.length - 1) 0
  sorted.map (fun value => remap value min max 0 1)

/-- The bucket-search loop in `write_state`:
`for (pos = 0; pos < size; ++pos) if (data[pos] < brightness) break;`
yielding the first index whose entry is below the brightness, or the size. -/
def find_pos (calibration_data_ : List ℚ) (brightness : ℚ) : Nat :=
  match calibration_data_ with
  | [] => 0
  | x :: rest => if x < brightness then 0 else find_pos rest brightness + 1

/-- The brightness-remapping portion of `ShellyDimmer::write_state`: when not
calibrating, the table is populated (`data[0] != 0`) and the requested
brightness is neither 0 nor 1, look up the bucket and remap; a miss
(`pos == size || pos == 0`) logs a warning and passes the value through. -/
def write_state_brightness (calibration_data_ : List ℚ) (calibrating_ : Bool)
    (brightness : ℚ) : ℚ :=
  if calibrating_ = false ∧ calibration_data_.getD 0 0 ≠ 0 ∧
      brightness ≠ 0 ∧ brightness ≠ 1 then
    let pos := find_pos calibration_data_ brightness
    if pos = calibration_data_.length ∨ pos = 0 then brightness
    else
      remap brightness (calibration_data_.getD pos 0)
        (calibration_data_.getD (pos - 1) 0)
        (1 - (pos : ℚ) * CALIBRATION_STEP)
        (1 - (pos : ℚ) * CALIBRATION_STEP + CALIBRATION_STEP)
  else brightness

/-- C++ `float` → `uint16_t` conversion for nonnegative in-range values:
truncation toward zero, i.e. the floor for `q ≥ 0`. -/
def float_to_uint16 (q : ℚ) : Nat := (⌊q⌋).toNat

/-- `ShellyDimmer::convert_brightness_`: zero is special-cased ("only zero
means turn off completely"), anything else is
`remap<uint16_t, float>(brightness, 0, 1, min_brightness_, max_brightness_)`
(the `uint16_t` arguments go through integer promotion, so their subtraction
is exact; the float result converts back to `uint16_t` by truncation). -/
def convert_brightness_ (min_brightness_ max_brightness_ : Nat)
    (brightness : ℚ) : Nat :=
  if brightness = 0 then 0
  else
    float_to_uint16 (remap brightness 0 1 (min_brightness_ : ℚ)
      (max_brightness_ : ℚ))

/-- Raw per-step mean powers used to exercise the calibration claim. -/
def calib_raw_means : List ℚ :=
  [100, 98, 95, 93, 90, 85, 80, 75, 70, 65,
   60, 55, 50, 45, 40, 35, 30, 25, 20, 5]

/-- A populated descending calibration table used to exercise the runtime
remap claim. -/
def calib_table_c6 : List ℚ :=
  [1, 19/20, 9/10, 17/20, 4/5, 3/4, 7/10, 13/20, 3/5, 11/20,
   1/2, 9/20, 2/5, 7/20, 3/10, 1/4, 1/5, 3/20, 1/10, 1/20]

/-! ## Theorems -/

theorem read_frame_nil (buffer_ : List Nat) :
    read_frame_ buffer_ [] = (false, buffer_, [], none) := rfl

theorem read_frame_cons (buffer_ : List Nat) (c : Nat) (rest : List Nat) :
    read_frame_ buffer_ (c :: rest) =
      if handle_byte_ buffer_ c = 0 then
        (true, [], rest, some (buffer_ ++ [c]))
      else if handle_byte_ buffer_ c = -1 then read_frame_ [] rest
      else read_frame_ (buffer_ ++ [c]) rest := rfl

/-- The `uint16_t` accumulator makes `shelly_dimmer_checksum` the plain sum
of the bytes reduced `% 2^16`. -/
theorem shelly_dimmer_checksum_eq (l : List Nat) :
    shelly_dimmer_checksum l = l.sum % 65536 := by
  have key : ∀ (l : List Nat) (a : Nat),
      l.foldl (fun acc b => (acc + b) % 65536) (a % 65536) =
        (a + l.sum) % 65536 := by
    intro l
    induction l with
    | nil => intro a; simp
    | cons b t ih =>
      intro a
      simp only [List.foldl_cons, List.sum_cons]
      have h1 : (a % 65536 + b) % 65536 = (a + b) % 65536 := by omega
      rw [h1, ih (a + b), Nat.add_assoc]
  have h0 := key l 0
  simpa [shelly_dimmer_checksum] using h0

/-- If every byte of `xs` makes `handle_byte_` ask for more data, the read
loop just appends `xs` to the receive buffer and continues with the rest. -/
theorem read_frame_append (xs : List Nat) :
    ∀ (buf ys : List Nat),
      (∀ j, j < xs.length → handle_byte_ (buf ++ xs.take j) (xs.getD j 0) = 1) →
      read_frame_ buf (xs ++ ys) = read_frame_ (buf ++ xs) ys := by
  induction xs with
  | nil => intro buf ys _; simp
  | cons x t ih =>
    intro buf ys h
    have h0 : handle_byte_ buf x = 1 := by
      have := h 0 (by simp)
      simpa using this
    have hrest : ∀ j, j < t.length →
        handle_byte_ ((buf ++ [x]) ++ t.take j) (t.getD j 0) = 1 := by
      intro j hj
      have := h (j + 1) (by simpa using Nat.succ_lt_succ hj)
      simpa [List.append_assoc] using this
    have step : read_frame_ buf ((x :: t) ++ ys) =
        read_frame_ (buf ++ [x]) (t ++ ys) := by
      rw [List.cons_append, read_frame_cons,
        if_neg (by rw [h0]; decide), if_neg (by rw [h0]; decide)]
    rw [step, ih (buf ++ [x]) ys hrest]
    simp

/-- In the body of a frame (four header bytes stored, at most `LEN` further
bytes so far, `LEN ≤ 72`), any byte is accepted. -/
theorem handle_byte_body (s cmd L : Nat) (t : List Nat) (c : Nat)
    (hL : L ≤ 72) (ht : t.length ≤ L) :
    handle_byte_ ([1, s, cmd, L] ++ t) c = 1 := by
  have hlen : ([1, s, cmd, L] ++ t).length = 4 + t.length := by
    rw [List.length_append]
    rfl
  have hget : ([1, s, cmd, L] ++ t).getD 3 0 = L :=
    List.getD_append _ _ _ _ (by simp)
  simp only [handle_byte_, hlen, hget, SHELLY_DIMMER_BUFFER_SIZE]
  rw [if_neg (by omega), if_neg (by omega), if_neg (by omega),
    if_pos (by omega)]

/-- C1: framing any command and any payload of at most 72 bytes and feeding
the frame byte by byte into the receive state machine (from position 0)
completes exactly at the last byte, with the receive buffer holding the whole
frame; the command sits at offset 2, the payload at offsets 4..4+len-1, and
the two checksum bytes encode the sum `% 2^16` of the bytes from SEQ through
the last payload byte. -/
theorem frame_roundtrip (seq_ cmd : Nat) (payload : List Nat)
    (hcmd : cmd < 256) (hbytes : ∀ b ∈ payload, b < 256)
    (hlen : payload.length ≤ 72) :
    read_frame_ [] (frame_command_ seq_ cmd payload).2 =
      (true, [], [], some ((frame_command_ seq_ cmd payload).2)) ∧
    ((frame_command_ seq_ cmd payload).2).getD 2 0 = cmd ∧
    (((frame_command_ seq_ cmd payload).2).drop 4).take payload.length =
      payload ∧
    ((frame_command_ seq_ cmd payload).2).getD (4 + payload.length) 0 * 256 +
        ((frame_command_ seq_ cmd payload).2).getD (5 + payload.length) 0 =
      ([(seq_ + 1) % 256, cmd, payload.length] ++ payload).sum % 65536 := by
  set s := (seq_ + 1) % 256 with hs
  set C := shelly_dimmer_checksum ([s, cmd, payload.length] ++ payload)
    with hC
  have hCframe : (frame_command_ seq_ cmd payload).2 =
      [1, s, cmd, payload.length] ++
        ((payload ++ [C / 256]) ++ [C % 256, 4]) := by
    rw [hC, hs]
    simp [frame_command_, SHELLY_DIMMER_PROTO_START_BYTE,
      SHELLY_DIMMER_PROTO_END_BYTE, List.append_assoc]
  -- the four header bytes all advance the parser
  have hchunk1 : ∀ j, j < ([1, s, cmd, payload.length] : List Nat).length →
      handle_byte_ (([] : List Nat) ++
          ([1, s, cmd, payload.length] : List Nat).take j)
        (([1, s, cmd, payload.length] : List Nat).getD j 0) = 1 := by
    intro j hj
    have hj4 : j < 4 := by simpa using hj
    interval_cases j <;> rfl
  -- the payload and the high checksum byte all advance the parser
  have hchunk2 : ∀ j, j < (payload ++ [C / 256]).length →
      handle_byte_ ([1, s, cmd, payload.length] ++
          (payload ++ [C / 256]).take j)
        ((payload ++ [C / 256]).getD j 0) = 1 := by
    intro j hj
    have hj' : j < payload.length + 1 := by simpa using hj
    exact handle_byte_body s cmd payload.length _ _ hlen
      (by simp only [List.length_take, List.length_append, List.length_cons, List.length_nil]; omega)
  -- consuming the header, payload and high checksum byte leaves them stored
  have hB : ∀ ys, read_frame_ []
      (([1, s, cmd, payload.length] ++
        ((payload ++ [C / 256]) ++ ys) : List Nat)) =
      read_frame_ ([1, s, cmd, payload.length] ++ (payload ++ [C / 256]))
        ys := by
    intro ys
    rw [read_frame_append [1, s, cmd, payload.length] []
      ((payload ++ [C / 256]) ++ ys) hchunk1, List.nil_append,
      read_frame_append (payload ++ [C / 256]) [1, s, cmd, payload.length]
      ys hchunk2]
  -- facts about the buffer holding header, payload and high checksum byte
  have hlenB : ([1, s, cmd, payload.length] ++
      (payload ++ [C / 256]) : List Nat).length = 4 + payload.length + 1 := by
    simp only [List.length_append, List.length_cons, List.length_nil]
    omega
  have hget3 : ([1, s, cmd, payload.length] ++
      (payload ++ [C / 256]) : List Nat).getD 3 0 = payload.length :=
    List.getD_append _ _ _ _ (by simp)
  have hgethi : ([1, s, cmd, payload.length] ++
      (payload ++ [C / 256]) : List Nat).getD (4 + payload.length) 0 =
      C / 256 := by
    rw [List.getD_append_right _ _ _ _ (by simp)]
    rw [show 4 + payload.length -
        ([1, s, cmd, payload.length] : List Nat).length = payload.length
      from by simp]
    rw [List.getD_append_right _ _ _ _ (Nat.le_refl _), Nat.sub_self]
    rfl
  have hverify : (([1, s, cmd, payload.length] ++
        (payload ++ [C / 256]) : List Nat).drop 1).take
      (3 + payload.length) = [s, cmd, payload.length] ++ payload := by
    have hdrop : ([1, s, cmd, payload.length] ++
        (payload ++ [C / 256]) : List Nat).drop 1 =
        [s, cmd, payload.length] ++ (payload ++ [C / 256]) := rfl
    have hlen3 : (([s, cmd, payload.length] ++ payload : List Nat)).length =
        3 + payload.length := by
      rw [List.length_append]
      rfl
    rw [hdrop, ← List.append_assoc, ← hlen3, List.take_left]
  have hcsum : handle_byte_
      ([1, s, cmd, payload.length] ++ (payload ++ [C / 256])) (C % 256) =
      1 := by
    simp only [handle_byte_, hlenB, hget3, SHELLY_DIMMER_BUFFER_SIZE]
    rw [if_neg (by omega), if_neg (by omega), if_neg (by omega),
      if_neg (by omega), if_pos trivial]
    rw [show 4 + payload.length + 1 - 1 = 4 + payload.length from rfl,
      hgethi, hverify, ← hC]
    rw [if_pos (by omega)]
  have hend : handle_byte_
      (([1, s, cmd, payload.length] ++ (payload ++ [C / 256])) ++ [C % 256])
      4 = 0 := by
    have hlen2 : ((([1, s, cmd, payload.length] ++ (payload ++ [C / 256])) ++
        [C % 256]) : List Nat).length = 4 + payload.length + 2 := by
      rw [List.length_append, hlenB]
      rfl
    have hget3a : ((([1, s, cmd, payload.length] ++ (payload ++ [C / 256])) ++
        [C % 256]) : List Nat).getD 3 0 = payload.length := by
      rw [List.getD_append _ _ _ _ (by rw [hlenB]; omega)]
      exact hget3
    simp only [handle_byte_, hlen2, hget3a, SHELLY_DIMMER_BUFFER_SIZE]
    rw [if_neg (by omega), if_neg (by omega), if_neg (by omega),
      if_neg (by omega), if_neg (by omega), if_pos trivial,
      if_pos (by rfl)]
  refine ⟨?_, ?_, ?_, ?_⟩
  · rw [hCframe, hB [C % 256, 4]]
    rw [read_frame_cons, if_neg (by rw [hcsum]; decide),
      if_neg (by rw [hcsum]; decide)]
    rw [read_frame_cons, if_pos (by rw [hend])]
    simp [List.append_assoc]
  · rw [hCframe, List.getD_append _ _ _ _ (by simp)]
    rfl
  · rw [hCframe]
    rw [show ([1, s, cmd, payload.length] ++
        ((payload ++ [C / 256]) ++ [C % 256, 4]) : List Nat).drop 4 =
      (payload ++ [C / 256]) ++ [C % 256, 4] from rfl]
    rw [List.append_assoc]
    exact List.take_left _ _
  · rw [hCframe]
    have hv1 : ([1, s, cmd, payload.length] ++
        ((payload ++ [C / 256]) ++ [C % 256, 4]) : List Nat).getD
        (4 + payload.length) 0 = C / 256 := by
      rw [List.getD_append_right _ _ _ _ (by simp)]
      rw [show 4 + payload.length -
          ([1, s, cmd, payload.length] : List Nat).length = payload.length
        from by simp]
      rw [List.getD_append _ _ _ _ (by simp)]
      rw [List.getD_append_right _ _ _ _ (Nat.le_refl _), Nat.sub_self]
      rfl
    have hv2 : ([1, s, cmd, payload.length] ++
        ((payload ++ [C / 256]) ++ [C % 256, 4]) : List Nat).getD
        (5 + payload.length) 0 = C % 256 := by
      rw [List.getD_append_right _ _ _ _ (by simp only [List.length_cons, List.length_nil]; omega)]
      rw [show 5 + payload.length -
          ([1, s, cmd, payload.length] : List Nat).length =
          payload.length + 1
        from by simp [Nat.add_comm]]
      rw [List.getD_append_right _ _ _ _ (by simp)]
      rw [show payload.length + 1 -
          ((payload ++ [C / 256] : List Nat)).length = 0
        from by simp]
      rfl
    rw [hv1, hv2, ← shelly_dimmer_checksum_eq, ← hC]
    omega

/-- C1 witness: the round trip at `seq_ = 0`, SWITCH, payload
`[0xE8, 0x03]`. -/
theorem frame_roundtrip_witness :
    read_frame_ [] (frame_command_ 0 SHELLY_DIMMER_PROTO_CMD_SWITCH
        [0xE8, 0x03]).2 =
      (true, [], [],
        some ((frame_command_ 0 SHELLY_DIMMER_PROTO_CMD_SWITCH
          [0xE8, 0x03]).2)) ∧
    ((frame_command_ 0 SHELLY_DIMMER_PROTO_CMD_SWITCH
        [0xE8, 0x03]).2).getD 2 0 = SHELLY_DIMMER_PROTO_CMD_SWITCH ∧
    (((frame_command_ 0 SHELLY_DIMMER_PROTO_CMD_SWITCH
        [0xE8, 0x03]).2).drop 4).take ([0xE8, 0x03] : List Nat).length =
      [0xE8, 0x03] ∧
    ((frame_command_ 0 SHELLY_DIMMER_PROTO_CMD_SWITCH
          [0xE8, 0x03]).2).getD (4 + ([0xE8, 0x03] : List Nat).length) 0 *
          256 +
        ((frame_command_ 0 SHELLY_DIMMER_PROTO_CMD_SWITCH
          [0xE8, 0x03]).2).getD (5 + ([0xE8, 0x03] : List Nat).length) 0 =
      ([(0 + 1) % 256, SHELLY_DIMMER_PROTO_CMD_SWITCH,
          ([0xE8, 0x03] : List Nat).length] ++ [0xE8, 0x03]).sum % 65536 :=
  frame_roundtrip 0 SHELLY_DIMMER_PROTO_CMD_SWITCH [0xE8, 0x03]
    (by decide) (by decide) (by decide)

/-- C2: with `seq_ = 0`, framing a SWITCH command with payload `[0xE8, 0x03]`
produces exactly `01 01 01 02 E8 03 00 EF 04` (START, pre-incremented SEQ,
CMD, LEN, payload, checksum `0x00EF` high then low, END). -/
theorem switch_frame_concrete :
    frame_command_ 0 SHELLY_DIMMER_PROTO_CMD_SWITCH [0xE8, 0x03] =
      (1, [0x01, 0x01, 0x01, 0x02, 0xE8, 0x03, 0x00, 0xEF, 0x04]) := by
  decide


/-- C3 failing input: the source guards the POLL decode with
`payload_len < 16` yet reads `payload[16]`, so a POLL response with a
16-byte payload is decoded and published (`handle_frame_` returns `true`
with telemetry) although the claim and spec require at least 17 bytes. -/
theorem poll_len16_published :
    (handle_frame_ 1 poll_response_16).ok = true ∧
      (handle_frame_ 1 poll_response_16).poll ≠ none := by
  decide

/-- C4 counterexample: the claim states `power_raw = 0x00000100 = 256`, but
bytes 4..7 of the payload are `00 00 01 00`, whose little-endian `u32` value
is `0x00010000 = 65536`; the code decodes 65536, not 256. -/
theorem poll_decode_concrete_raw_ne :
    (handle_frame_ 1 poll_response_17).poll.map PollData.power_raw =
        some 65536 ∧
      (handle_frame_ 1 poll_response_17).poll.map PollData.power_raw ≠
        some 256 := by
  decide

/-- C4 amended: dispatching the POLL response with payload
`01 00 E8 03 00 00 01 00 00 00 01 00 00 00 01 00 00` yields
`hw_version = 1`, `brightness = 0x03E8 = 1000`,
`power_raw = voltage_raw = current_raw = 0x00010000 = 65536` and
`fade_rate = 0` (brightness is `(payload[3]<<8)|payload[2]`, each raw a
little-endian `u32` over its four bytes). -/
theorem poll_decode_concrete :
    (handle_frame_ 1 poll_response_17).ok = true ∧
      (handle_frame_ 1 poll_response_17).poll.map
          (fun d => (d.hw_version, d.brightness, d.power_raw, d.voltage_raw,
            d.current_raw, d.fade_rate)) =
        some (1, 1000, 65536, 65536, 65536, 0) := by
  decide


/-! ### Receive-buffer bounds (claim C10) -/

theorem rx_states_nil (buffer_ : List Nat) :
    rx_states buffer_ [] = [buffer_] := rfl

theorem rx_states_cons (buffer_ : List Nat) (c : Nat) (rest : List Nat) :
    rx_states buffer_ (c :: rest) =
      buffer_ :: rx_states (rx_step buffer_ c) rest := rfl

/-- Every state the parser passes through is the initial one or the result
of a single `rx_step`. -/
theorem rx_states_mem (input : List Nat) : ∀ buf st, st ∈ rx_states buf input →
    st = buf ∨ ∃ b c, st = rx_step b c := by
  induction input with
  | nil =>
    intro buf st h
    rw [rx_states_nil] at h
    simp at h
    exact Or.inl h
  | cons c rest ih =>
    intro buf st h
    rw [rx_states_cons] at h
    rcases List.mem_cons.mp h with h1 | h2
    · exact Or.inl h1
    · rcases ih (rx_step buf c) st h2 with h3 | h4
      · exact Or.inr ⟨buf, c, h3⟩
      · exact Or.inr h4

/-- After any single step, the receive buffer holds at most 78 bytes, and
once the header is complete it never exceeds `4 + LEN + 2` bytes. -/
theorem rx_step_bound (buf : List Nat) (c : Nat) :
    (rx_step buf c).length ≤ 78 ∧
    (5 ≤ (rx_step buf c).length →
      (rx_step buf c).length ≤ 4 + (rx_step buf c).getD 3 0 + 2) := by
  by_cases h0 : handle_byte_ buf c = 0
  · simp [rx_step, h0]
  · by_cases h1 : handle_byte_ buf c = -1
    · simp [rx_step, h0, h1]
    · have hstep : rx_step buf c = buf ++ [c] := by
        simp [rx_step, h0, h1]
      rw [hstep]
      have hlen : (buf ++ [c]).length = buf.length + 1 := by simp
      by_cases hp0 : buf.length = 0
      · rw [hlen, hp0]
        exact ⟨by omega, fun h => absurd h (by omega)⟩
      · by_cases hp4 : buf.length < 4
        · rw [hlen]
          exact ⟨by omega, fun h => absurd h (by omega)⟩
        · have hsz : ¬ 4 + buf.getD 3 0 + 3 > 79 := by
            intro hgt
            apply h1
            simp only [handle_byte_, SHELLY_DIMMER_BUFFER_SIZE]
            rw [if_neg hp0, if_neg hp4, if_pos hgt]
          have hle : buf.length ≤ 4 + buf.getD 3 0 + 1 := by
            by_contra hgt
            push_neg at hgt
            by_cases hend2 : buf.length = 4 + buf.getD 3 0 + 2
            · by_cases hc : c = SHELLY_DIMMER_PROTO_END_BYTE
              · apply h0
                simp only [handle_byte_, SHELLY_DIMMER_BUFFER_SIZE]
                rw [if_neg hp0, if_neg hp4, if_neg hsz, if_neg (by omega),
                  if_neg (by omega), if_pos hend2, if_pos hc]
              · apply h1
                simp only [handle_byte_, SHELLY_DIMMER_BUFFER_SIZE]
                rw [if_neg hp0, if_neg hp4, if_neg hsz, if_neg (by omega),
                  if_neg (by omega), if_pos hend2, if_neg hc]
            · apply h1
              simp only [handle_byte_, SHELLY_DIMMER_BUFFER_SIZE]
              rw [if_neg hp0, if_neg hp4, if_neg hsz, if_neg (by omega),
                if_neg (by omega), if_neg hend2]
          have hget : (buf ++ [c]).getD 3 0 = buf.getD 3 0 :=
            List.getD_append _ _ _ _ (by omega)
          rw [hlen, hget]
          exact ⟨by omega, fun _ => by omega⟩

/-- C10: for every sequence of incoming bytes, every receive-buffer state the
parser passes through (each is the position of the next
`buffer_[buffer_pos_] = c` write) stays strictly below the 79-byte buffer
size, and once the header is complete the position never exceeds
`4 + LEN + 2`. -/
theorem rx_buffer_bounds (input st : List Nat)
    (hst : st ∈ rx_states [] input) :
    st.length < SHELLY_DIMMER_BUFFER_SIZE ∧
    (5 ≤ st.length → st.length ≤ 4 + st.getD 3 0 + 2) := by
  rcases rx_states_mem input [] st hst with h | ⟨b, c, h⟩
  · subst h
    constructor <;> simp [SHELLY_DIMMER_BUFFER_SIZE]
  · subst h
    have hb := rx_step_bound b c
    refine ⟨?_, hb.2⟩
    have h1 := hb.1
    simp only [SHELLY_DIMMER_BUFFER_SIZE]
    omega

/-- C10 witness: the state `[0x01]` reached while parsing the bytes
`01 02`. -/
theorem rx_buffer_bounds_witness :
    ([1] : List Nat) ∈ rx_states [] [1, 2] ∧
    (([1] : List Nat).length < SHELLY_DIMMER_BUFFER_SIZE ∧
      (5 ≤ ([1] : List Nat).length →
        ([1] : List Nat).length ≤ 4 + ([1] : List Nat).getD 3 0 + 2)) :=
  ⟨by decide, rx_buffer_bounds [1, 2] [1] (by decide)⟩

/-! ### Retries and sequence numbers (claims C7, C8) -/

theorem wait_for_ack_succ (b i : List Nat) (fuel : Nat) :
    wait_for_ack b i (fuel + 1) =
      if (read_frame_ b i).1 then
        (true, (read_frame_ b i).2.1, (read_frame_ b i).2.2.1, 0)
      else
        ((wait_for_ack (read_frame_ b i).2.1 (read_frame_ b i).2.2.1 fuel).1,
         (wait_for_ack (read_frame_ b i).2.1 (read_frame_ b i).2.2.1 fuel).2.1,
         (wait_for_ack (read_frame_ b i).2.1
           (read_frame_ b i).2.2.1 fuel).2.2.1,
         (wait_for_ack (read_frame_ b i).2.1
           (read_frame_ b i).2.2.1 fuel).2.2.2 + 1) := rfl

/-- A drained UART never acknowledges: the full `fuel` is spent in
`delay(1)`. -/
theorem wait_for_ack_no_input (fuel : Nat) : ∀ b,
    wait_for_ack b [] fuel = (false, b, [], fuel) := by
  induction fuel with
  | zero => intro b; rfl
  | succ n ih =>
    intro b
    rw [wait_for_ack_succ]
    simp [read_frame_nil, ih b]

/-- When `read_frame_` does not complete a frame it consumes the whole
input. -/
theorem read_frame_rest (input : List Nat) : ∀ buffer_,
    (read_frame_ buffer_ input).1 = false →
    (read_frame_ buffer_ input).2.2.1 = [] := by
  induction input with
  | nil => intro b _; rfl
  | cons c rest ih =>
    intro b h
    rw [read_frame_cons] at h ⊢
    by_cases h0 : handle_byte_ b c = 0
    · rw [if_pos h0] at h
      simp at h
    · rw [if_neg h0] at h ⊢
      by_cases h1 : handle_byte_ b c = -1
      · rw [if_pos h1] at h ⊢
        exact ih [] h
      · rw [if_neg h1] at h ⊢
        exact ih _ h

theorem send_attempts_zero (frame b i : List Nat) :
    send_attempts frame b i 0 = (false, [], 0) := rfl

theorem send_attempts_succ (frame b i : List Nat) (r : Nat) :
    send_attempts frame b i (r + 1) =
      if (wait_for_ack b i SHELLY_DIMMER_ACK_TIMEOUT).1 then
        (true, [frame], (wait_for_ack b i SHELLY_DIMMER_ACK_TIMEOUT).2.2.2)
      else
        ((send_attempts frame
            (wait_for_ack b i SHELLY_DIMMER_ACK_TIMEOUT).2.1
            (wait_for_ack b i SHELLY_DIMMER_ACK_TIMEOUT).2.2.1 r).1,
         frame :: (send_attempts frame
            (wait_for_ack b i SHELLY_DIMMER_ACK_TIMEOUT).2.1
            (wait_for_ack b i SHELLY_DIMMER_ACK_TIMEOUT).2.2.1 r).2.1,
         (wait_for_ack b i SHELLY_DIMMER_ACK_TIMEOUT).2.2.2 +
           (send_attempts frame
            (wait_for_ack b i SHELLY_DIMMER_ACK_TIMEOUT).2.1
            (wait_for_ack b i SHELLY_DIMMER_ACK_TIMEOUT).2.2.1 r).2.2) := rfl

/-- With a drained UART every attempt writes the frame and burns the full
200 ms timeout. -/
theorem send_attempts_no_input (frame : List Nat) (n : Nat) : ∀ b,
    send_attempts frame b [] n = (false, List.replicate n frame, n * 200) := by
  induction n with
  | zero => intro b; rfl
  | succ k ih =>
    intro b
    rw [send_attempts_succ]
    have hw : wait_for_ack b [] SHELLY_DIMMER_ACK_TIMEOUT =
        (false, b, [], 200) := wait_for_ack_no_input 200 b
    rw [hw]
    simp only [ih b]
    simp [List.replicate_succ, Nat.succ_mul]
    omega

/-- Every frame written by the retry loop is the frame it was given. -/
theorem send_attempts_writes (frame : List Nat) (n : Nat) : ∀ b i,
    ∀ f ∈ (send_attempts frame b i n).2.1, f = frame := by
  induction n with
  | zero =>
    intro b i f hf
    rw [send_attempts_zero] at hf
    simp at hf
  | succ k ih =>
    intro b i f hf
    rw [send_attempts_succ] at hf
    by_cases hw : (wait_for_ack b i SHELLY_DIMMER_ACK_TIMEOUT).1
    · rw [if_pos hw] at hf
      simpa using hf
    · rw [if_neg hw] at hf
      simp only [List.mem_cons] at hf
      rcases hf with h | h
      · exact h
      · exact ih _ _ f h

theorem frame_command_seq_byte (seq_ cmd : Nat) (payload : List Nat) :
    ((frame_command_ seq_ cmd payload).2).getD 1 0 = (seq_ + 1) % 256 := rfl

/-- C8: `send_command_` (via `frame_command_`) increments the driver's
sequence counter by exactly one modulo 256 before transmission, and every
frame written during the call (all retries) carries that same SEQ byte, so
SEQ advances by one per `send_command_` call. -/
theorem send_command_seq (seq_ cmd : Nat) (payload buffer_ input : List Nat) :
    (send_command_ seq_ cmd payload buffer_ input).2.1 = (seq_ + 1) % 256 ∧
    ∀ f ∈ (send_command_ seq_ cmd payload buffer_ input).2.2.1,
      f.getD 1 0 = (seq_ + 1) % 256 := by
  constructor
  · rfl
  · intro f hf
    have hfr : f = (frame_command_ seq_ cmd payload).2 :=
      send_attempts_writes _ _ _ _ f hf
    rw [hfr]
    exact frame_command_seq_byte seq_ cmd payload

/-- C8 witness: one `send_command_` call at `seq_ = 0` with stub UART. -/
theorem send_command_seq_witness :
    (send_command_ 0 SHELLY_DIMMER_PROTO_CMD_POLL [] [] []).2.1 =
      (0 + 1) % 256 ∧
    ((frame_command_ 0 SHELLY_DIMMER_PROTO_CMD_POLL []).2).getD 1 0 =
      (0 + 1) % 256 :=
  ⟨(send_command_seq 0 SHELLY_DIMMER_PROTO_CMD_POLL [] [] []).1,
   (send_command_seq 0 SHELLY_DIMMER_PROTO_CMD_POLL [] [] []).2
     ((frame_command_ 0 SHELLY_DIMMER_PROTO_CMD_POLL []).2) (by decide)⟩

/-- A failing first read spends one loop iteration and drains the UART. -/
theorem wait_for_ack_first_fail (b input : List Nat) (fuel : Nat)
    (h : (read_frame_ b input).1 = false) :
    wait_for_ack b input (fuel + 1) =
      (false, (read_frame_ b input).2.1, [], fuel + 1) := by
  rw [wait_for_ack_succ, if_neg (by rw [h]; simp),
    read_frame_rest input b h, wait_for_ack_no_input]

/-- A completed frame acknowledges immediately, with no delay. -/
theorem wait_for_ack_first_ok (b input : List Nat) (fuel : Nat)
    (h : (read_frame_ b input).1 = true) :
    wait_for_ack b input (fuel + 1) =
      (true, (read_frame_ b input).2.1, (read_frame_ b input).2.2.1, 0) := by
  rw [wait_for_ack_succ, if_pos (by rw [h])]

/-- If the input never completes a frame, every attempt writes the frame and
burns the full 200 ms timeout. -/
theorem send_attempts_first_fail (frame b input : List Nat) (n : Nat)
    (h : (read_frame_ b input).1 = false) :
    send_attempts frame b input (n + 1) =
      (false, List.replicate (n + 1) frame, (n + 1) * 200) := by
  rw [send_attempts_succ, show SHELLY_DIMMER_ACK_TIMEOUT = 199 + 1 from rfl,
    wait_for_ack_first_fail b input 199 h]
  simp [send_attempts_no_input, List.replicate_succ, Nat.succ_mul,
    Nat.add_comm]

/-- If the input completes a frame at once, the first attempt succeeds with a
single write and no delay. -/
theorem send_attempts_first_ok (frame b input : List Nat) (n : Nat)
    (h : (read_frame_ b input).1 = true) :
    send_attempts frame b input (n + 1) = (true, [frame], 0) := by
  rw [send_attempts_succ, show SHELLY_DIMMER_ACK_TIMEOUT = 199 + 1 from rfl,
    wait_for_ack_first_ok b input 199 h]
  simp

/-- C7 (amended): if the UART never yields a complete, checksum-valid frame
(in particular if no bytes ever become available), `send_command_` writes and
flushes the identical frame exactly 3 times (`SHELLY_DIMMER_MAX_RETRIES`),
spends the full 200 ms (`SHELLY_DIMMER_ACK_TIMEOUT`) waiting after each write
(600 ms in total), and returns false; if a complete, checksum-valid frame —
regardless of its sequence byte — arrives within the timeout of some attempt,
it returns true (here: on the first attempt, with a single write). -/
theorem send_command_retry (seq_ cmd : Nat) (payload input : List Nat) :
    ((read_frame_ [] input).1 = false →
      send_command_ seq_ cmd payload [] input =
        (false, (seq_ + 1) % 256,
          List.replicate 3 ((frame_command_ seq_ cmd payload).2), 600)) ∧
    ((read_frame_ [] input).1 = true →
      send_command_ seq_ cmd payload [] input =
        (true, (seq_ + 1) % 256,
          [(frame_command_ seq_ cmd payload).2], 0)) := by
  have hsc : send_command_ seq_ cmd payload [] input =
      ((send_attempts ((frame_command_ seq_ cmd payload).2) [] input 3).1,
       (seq_ + 1) % 256,
       (send_attempts ((frame_command_ seq_ cmd payload).2) [] input 3).2.1,
       (send_attempts ((frame_command_ seq_ cmd payload).2) [] input 3).2.2) :=
    rfl
  constructor
  · intro hfalse
    have hatt := send_attempts_first_fail
      ((frame_command_ seq_ cmd payload).2) [] input 2 hfalse
    norm_num at hatt
    rw [hsc, hatt]
  · intro htrue
    have hatt := send_attempts_first_ok
      ((frame_command_ seq_ cmd payload).2) [] input 2 htrue
    norm_num at hatt
    rw [hsc, hatt]

/-- C7 counterexample: a complete, checksum-valid POLL response whose SEQ
byte (1) differs from the driver's counter (6 after pre-increment) still
makes `send_command_` return true after a single write, although the claim
demands 3 writes and a false return when no sequence-matching frame arrives
(`handle_frame_` itself rejects this frame, but its result is discarded by
`read_frame_`). -/
theorem send_command_mismatched_seq_ack :
    (read_frame_ [] [1, 1, 16, 0, 0, 17, 4]).2.2.2 =
      some [1, 1, 16, 0, 0, 17, 4] ∧
    (handle_frame_ ((5 + 1) % 256) [1, 1, 16, 0, 0, 17, 4]).ok = false ∧
    (send_command_ 5 SHELLY_DIMMER_PROTO_CMD_POLL [] []
        [1, 1, 16, 0, 0, 17, 4]).1 = true ∧
    (send_command_ 5 SHELLY_DIMMER_PROTO_CMD_POLL [] []
        [1, 1, 16, 0, 0, 17, 4]).2.2.1.length = 1 := by
  decide

/-- C7 witness: the stub UART (no bytes at all) and a valid frame arriving
at once. -/
theorem send_command_retry_witness :
    send_command_ 0 SHELLY_DIMMER_PROTO_CMD_POLL [] [] [] =
      (false, (0 + 1) % 256,
        List.replicate 3 ((frame_command_ 0 SHELLY_DIMMER_PROTO_CMD_POLL
          []).2), 600) ∧
    send_command_ 5 SHELLY_DIMMER_PROTO_CMD_POLL [] []
        [1, 1, 16, 0, 0, 17, 4] =
      (true, (5 + 1) % 256,
        [(frame_command_ 5 SHELLY_DIMMER_PROTO_CMD_POLL []).2], 0) :=
  ⟨(send_command_retry 0 SHELLY_DIMMER_PROTO_CMD_POLL [] []).1 (by decide),
   (send_command_retry 5 SHELLY_DIMMER_PROTO_CMD_POLL []
     [1, 1, 16, 0, 0, 17, 4]).2 (by decide)⟩

/-! ### Calibration finalisation (claim C5) -/

theorem getD_map (f : ℚ → ℚ) (l : List ℚ) : ∀ i, i < l.length →
    (l.map f).getD i 0 = f (l.getD i 0) := by
  induction l with
  | nil => intro i h; simp at h
  | cons a t ih =>
    intro i h
    cases i with
    | zero => rfl
    | succ j =>
      simp only [List.map_cons, List.getD_cons_succ]
      exact ih j (by simpa using h)

/-- In a descending list the head bounds every element from above. -/
theorem sorted_ge_le_head (l : List ℚ) (hl : l.Sorted (· ≥ ·)) :
    ∀ x ∈ l, x ≤ l.getD 0 0 := by
  cases l with
  | nil => intro x hx; simp at hx
  | cons a t =>
    intro x hx
    rcases List.mem_cons.mp hx with h | h
    · subst h
      exact le_of_eq (by rfl)
    · exact List.rel_of_sorted_cons hl x h

/-- In a descending list the last entry bounds every element from below. -/
theorem sorted_ge_last_le : ∀ l : List ℚ, l.Sorted (· ≥ ·) →
    ∀ x ∈ l, l.getD (l.length - 1) 0 ≤ x := by
  intro l
  induction l with
  | nil => intro _ x hx; simp at hx
  | cons a t ih =>
    intro hl x hx
    have htail := List.Sorted.of_cons hl
    cases t with
    | nil =>
      have hxa : x = a := by simpa using hx
      subst hxa
      simp
    | cons b t2 =>
      have hidx : (a :: b :: t2).length - 1 = t2.length + 1 := by simp
      rw [hidx, List.getD_cons_succ]
      have hidx2 : (b :: t2).length - 1 = t2.length := by simp
      rcases List.mem_cons.mp hx with h | h
      · subst h
        have h1 := ih htail b (by simp)
        rw [hidx2] at h1
        have h2 : b ≤ x := List.rel_of_sorted_cons hl b (by simp)
        exact le_trans h1 h2
      · have h1 := ih htail x h
        rw [hidx2] at h1
        exact h1

/-- C5: provided not all 20 per-step mean powers are equal, after
`complete_calibration_` the table is sorted non-increasing, its first entry
is exactly 1 and its 20th entry exactly 0, and each entry is the affine remap
of a raw mean (the sorted raws) from `[raw min, raw max]` onto `[0, 1]`,
where the raw min and max bound every raw mean. -/
theorem complete_calibration_spec (data : List ℚ) (h20 : data.length = 20)
    (hne : ¬ ∀ x ∈ data, ∀ y ∈ data, x = y) :
    List.Sorted (· ≥ ·) (complete_calibration_ data) ∧
    (complete_calibration_ data).getD 0 0 = 1 ∧
    (complete_calibration_ data).getD 19 0 = 0 ∧
    (∀ x ∈ data, (data.insertionSort (· ≥ ·)).getD 19 0 ≤ x ∧
      x ≤ (data.insertionSort (· ≥ ·)).getD 0 0) ∧
    (∀ i, i < 20 → (complete_calibration_ data).getD i 0 =
      remap ((data.insertionSort (· ≥ ·)).getD i 0)
        ((data.insertionSort (· ≥ ·)).getD 19 0)
        ((data.insertionSort (· ≥ ·)).getD 0 0) 0 1) := by
  have hperm : List.Perm (data.insertionSort (· ≥ ·)) data :=
    List.perm_insertionSort _ data
  have hslen : (data.insertionSort (· ≥ ·)).length = 20 := by
    rw [List.length_insertionSort, h20]
  have hsorted : List.Sorted (· ≥ ·) (data.insertionSort (· ≥ ·)) :=
    List.sorted_insertionSort _ data
  have hcc : complete_calibration_ data =
      (data.insertionSort (· ≥ ·)).map
        (fun value => remap value ((data.insertionSort (· ≥ ·)).getD 19 0)
          ((data.insertionSort (· ≥ ·)).getD 0 0) 0 1) := by
    simp only [complete_calibration_]
    rw [List.length_insertionSort, h20]
  have hbounds : ∀ x ∈ data, (data.insertionSort (· ≥ ·)).getD 19 0 ≤ x ∧
      x ≤ (data.insertionSort (· ≥ ·)).getD 0 0 := by
    intro x hx
    have hx2 : x ∈ data.insertionSort (· ≥ ·) := hperm.mem_iff.mpr hx
    constructor
    · have h1 := sorted_ge_last_le _ hsorted x hx2
      rw [hslen] at h1
      exact h1
    · exact sorted_ge_le_head _ hsorted x hx2
  have hMm : (data.insertionSort (· ≥ ·)).getD 19 0 <
      (data.insertionSort (· ≥ ·)).getD 0 0 := by
    by_contra hle
    push_neg at hle
    apply hne
    intro x hx y hy
    have hxb := hbounds x hx
    have hyb := hbounds y hy
    have hxy : x ≤ y := le_trans hxb.2 (le_trans hle hyb.1)
    have hyx : y ≤ x := le_trans hyb.2 (le_trans hle hxb.1)
    exact le_antisymm hxy hyx
  have hd : (0 : ℚ) < (data.insertionSort (· ≥ ·)).getD 0 0 -
      (data.insertionSort (· ≥ ·)).getD 19 0 := sub_pos.mpr hMm
  have hremap : ∀ v : ℚ,
      remap v ((data.insertionSort (· ≥ ·)).getD 19 0)
        ((data.insertionSort (· ≥ ·)).getD 0 0) 0 1 =
      (v - (data.insertionSort (· ≥ ·)).getD 19 0) /
        ((data.insertionSort (· ≥ ·)).getD 0 0 -
          (data.insertionSort (· ≥ ·)).getD 19 0) := by
    intro v
    unfold remap
    ring
  have hmono : ∀ x y : ℚ, x ≥ y →
      remap x ((data.insertionSort (· ≥ ·)).getD 19 0)
        ((data.insertionSort (· ≥ ·)).getD 0 0) 0 1 ≥
      remap y ((data.insertionSort (· ≥ ·)).getD 19 0)
        ((data.insertionSort (· ≥ ·)).getD 0 0) 0 1 := by
    intro x y hxy
    rw [hremap, hremap]
    exact (div_le_div_right hd).mpr (sub_le_sub_right hxy _)
  refine ⟨?_, ?_, ?_, hbounds, ?_⟩
  · rw [hcc]
    exact List.Pairwise.map _ (fun a b hab => hmono a b hab) hsorted
  · rw [hcc, getD_map _ _ 0 (by rw [hslen]; omega), hremap]
    exact div_self (ne_of_gt hd)
  · rw [hcc, getD_map _ _ 19 (by rw [hslen]; omega), hremap]
    rw [sub_self, zero_div]
  · intro i hi
    rw [hcc, getD_map _ _ i (by rw [hslen]; omega)]

/-- C5 witness: twenty distinct raw means. -/
theorem complete_calibration_witness :
    List.Sorted (· ≥ ·) (complete_calibration_ calib_raw_means) ∧
    (complete_calibration_ calib_raw_means).getD 0 0 = 1 ∧
    (complete_calibration_ calib_raw_means).getD 19 0 = 0 :=
  ⟨(complete_calibration_spec calib_raw_means (by decide) (by decide)).1,
   (complete_calibration_spec calib_raw_means (by decide) (by decide)).2.1,
   (complete_calibration_spec calib_raw_means (by decide)
     (by decide)).2.2.1⟩

/-! ### Runtime brightness remap (claim C6) -/

theorem find_pos_le (l : List ℚ) (b : ℚ) : find_pos l b ≤ l.length := by
  induction l with
  | nil => simp [find_pos]
  | cons x t ih =>
    by_cases hx : x < b
    · simp [find_pos, hx]
    · simp only [find_pos, if_neg hx, List.length_cons]
      omega

/-- `find_pos` is the least index whose entry is below the brightness: every
earlier entry is at least the brightness, and the found entry (when inside
the table) is below it. -/
theorem find_pos_spec (l : List ℚ) (b : ℚ) :
    (∀ j, j < find_pos l b → b ≤ l.getD j 0) ∧
    (find_pos l b < l.length → l.getD (find_pos l b) 0 < b) := by
  induction l with
  | nil =>
    constructor
    · intro j hj
      simp [find_pos] at hj
    · intro h
      simp [find_pos] at h
  | cons x t ih =>
    by_cases hx : x < b
    · constructor
      · intro j hj
        simp [find_pos, hx] at hj
      · intro _
        simpa [find_pos, hx] using hx
    · constructor
      · intro j hj
        simp only [find_pos, if_neg hx] at hj
        cases j with
        | zero => simpa using not_lt.mp hx
        | succ k =>
          rw [List.getD_cons_succ]
          exact ih.1 k (by omega)
      · intro h
        simp only [find_pos, if_neg hx, List.length_cons] at h
        simp only [find_pos, if_neg hx, List.getD_cons_succ]
        exact ih.2 (by omega)

/-- C6: for a non-calibrating driver with a populated 20-entry table and
brightness strictly between 0 and 1, `write_state` locates the least `pos`
with `table[pos] < b` (all earlier entries are `>= b`); if `pos` is 0 or 20
the brightness passes through unchanged, otherwise it becomes the affine
remap of `b` from `[table[pos], table[pos-1]]` onto
`[1 - pos*0.05, 1 - pos*0.05 + 0.05]`; brightness 0.0 and 1.0 are never
remapped. -/
theorem write_state_remap_spec (data : List ℚ) (b : ℚ)
    (h20 : data.length = 20) (hcal : data.getD 0 0 ≠ 0)
    (hb0 : 0 < b) (hb1 : b < 1) :
    (find_pos data b ≤ 20 ∧
      (∀ j, j < find_pos data b → b ≤ data.getD j 0) ∧
      (find_pos data b < 20 → data.getD (find_pos data b) 0 < b)) ∧
    write_state_brightness data false b =
      (if find_pos data b = 0 ∨ find_pos data b = 20 then b
       else
         remap b (data.getD (find_pos data b) 0)
           (data.getD (find_pos data b - 1) 0)
           (1 - (find_pos data b : ℚ) * CALIBRATION_STEP)
           (1 - (find_pos data b : ℚ) * CALIBRATION_STEP +
             CALIBRATION_STEP)) ∧
    (∀ (d : List ℚ) (c : Bool), write_state_brightness d c 0 = 0 ∧
      write_state_brightness d c 1 = 1) := by
  have hle := find_pos_le data b
  refine ⟨⟨by omega, (find_pos_spec data b).1, ?_⟩, ?_, ?_⟩
  · intro h
    exact (find_pos_spec data b).2 (by omega)
  · unfold write_state_brightness
    rw [if_pos ⟨rfl, hcal, ne_of_gt hb0, ne_of_lt hb1⟩]
    by_cases hp : find_pos data b = data.length ∨ find_pos data b = 0
    · rw [if_pos hp, if_pos (by omega)]
    · rw [if_neg hp, if_neg (by omega)]
  · intro d c
    constructor
    · unfold write_state_brightness
      rw [if_neg (by simp)]
    · unfold write_state_brightness
      rw [if_neg (by simp)]

/-- C6 witness: the populated table and brightness `3/5`. -/
theorem write_state_remap_witness :
    find_pos calib_table_c6 (3/5) ≤ 20 ∧
    write_state_brightness [] false 0 = 0 ∧
    write_state_brightness [] false 1 = 1 :=
  ⟨(write_state_remap_spec calib_table_c6 (3/5) (by decide) (by norm_num [calib_table_c6])
      (by norm_num) (by norm_num)).1.1,
   ((write_state_remap_spec calib_table_c6 (3/5) (by decide) (by norm_num [calib_table_c6])
      (by norm_num) (by norm_num)).2.2 [] false).1,
   ((write_state_remap_spec calib_table_c6 (3/5) (by decide) (by norm_num [calib_table_c6])
      (by norm_num) (by norm_num)).2.2 [] false).2⟩

/-! ### Brightness conversion (claim C9) -/

/-- C9: `convert_brightness_` returns exactly 0 for brightness 0, exactly
`max_brightness_` for brightness 1, and for any other input the affine remap
of the input from `[0, 1]` onto `[min_brightness_, max_brightness_]`
truncated to `uint16_t`. -/
theorem convert_brightness_spec (min_brightness_ max_brightness_ : Nat) :
    convert_brightness_ min_brightness_ max_brightness_ 0 = 0 ∧
    convert_brightness_ min_brightness_ max_brightness_ 1 =
      max_brightness_ ∧
    (∀ b : ℚ, b ≠ 0 →
      convert_brightness_ min_brightness_ max_brightness_ b =
        float_to_uint16 ((b - 0) * ((max_brightness_ : ℚ) -
          (min_brightness_ : ℚ)) / (1 - 0) + (min_brightness_ : ℚ))) := by
  refine ⟨rfl, ?_, ?_⟩
  · unfold convert_brightness_
    rw [if_neg (by norm_num)]
    have h1 : remap 1 0 1 (min_brightness_ : ℚ) (max_brightness_ : ℚ) =
        (max_brightness_ : ℚ) := by
      unfold remap
      ring
    rw [h1]
    unfold float_to_uint16
    rw [Int.floor_natCast]
    exact Int.toNat_natCast max_brightness_
  · intro b hb
    unfold convert_brightness_ remap
    rw [if_neg hb]

/-- C9 witness: `min_brightness_ = 200`, `max_brightness_ = 1000`,
brightness `1/2`. -/
theorem convert_brightness_witness :
    convert_brightness_ 200 1000 0 = 0 ∧
    convert_brightness_ 200 1000 1 = 1000 ∧
    convert_brightness_ 200 1000 (1/2) =
      float_to_uint16 ((1/2 - 0) * (((1000 : Nat) : ℚ) -
        ((200 : Nat) : ℚ)) / (1 - 0) + ((200 : Nat) : ℚ)) :=
  ⟨(convert_brightness_spec 200 1000).1,
   (convert_brightness_spec 200 1000).2.1,
   (convert_brightness_spec 200 1000).2.2 (1/2) (by norm_num)⟩

end ShellyDimmer
